import Mathlib

/-!
Verification of the `counter` testbench (`examples/counter/tb/sv/counter_tb.cpp`).

The testbench drives a device-under-test (DUT) — a synchronous counter model —
through 100 clock cycles: it asserts active-low reset for the first five
cycles, then releases reset and enables counting; each cycle it toggles the
clock low then high, invoking the model's evaluation after each assignment,
optionally records a waveform sample after each evaluation, and prints the
observed `count` output.

The embedding below mirrors the testbench `main` statement by statement as a
state transformer that also accumulates a trace of externally visible events
(signal assignments, model evaluations, waveform samples, printed lines,
teardown actions).  The DUT itself is an external collaborator: it is
abstracted as a record of an initial internal state, an evaluation function
and a `count` output projection, so every structural theorem is proved for an
arbitrary DUT model.  A concrete counter model (built from the specification,
since the Verilog source of the counter is not part of this tree) instantiates
it for the value-level scenarios.
-/

/-- The three input signals of the DUT, as assigned by the testbench
(`top->rst_n`, `top->enable`, `top->clk`).  All are single-bit values. -/
structure DutSignals where
  rst_n : Nat
  enable : Nat
  clk : Nat
deriving DecidableEq, Repr

/-- Abstract DUT model: internal state `σ`, an initial state (the freshly
constructed `Vcounter`), an evaluation function (`top->eval()`, reading the
current input signals) and the `count` output projection (`top->count`). -/
structure DutModel (σ : Type) where
  init : σ
  eval : DutSignals → σ → σ
  count : σ → Nat

/-- Externally visible events of one testbench run, in program order. -/
inductive Event where
  | assignRstN (v : Nat)
  | assignEnable (v : Nat)
  | assignClk (v : Nat)
  | evalE (s : DutSignals)
  | dump (t : Nat)
  | printLine (cycle : Nat) (count : Nat)
  | traceOpen
  | traceClose
  | freeRecorder
  | freeDut
deriving DecidableEq, Repr

/-- Mutable state of the testbench: the DUT's input signals, the DUT's
internal state, and the accumulated event trace. -/
structure TbState (σ : Type) where
  sigs : DutSignals
  dutState : σ
  events : List Event
deriving Repr

/-- `top->rst_n = v;` -/
def setRstN (v : Nat) (st : TbState σ) : TbState σ :=
  { st with sigs := { st.sigs with rst_n := v }, events := st.events ++ [Event.assignRstN v] }

/-- `top->enable = v;` -/
def setEnable (v : Nat) (st : TbState σ) : TbState σ :=
  { st with sigs := { st.sigs with enable := v }, events := st.events ++ [Event.assignEnable v] }

/-- `top->clk = v;` -/
def setClk (v : Nat) (st : TbState σ) : TbState σ :=
  { st with sigs := { st.sigs with clk := v }, events := st.events ++ [Event.assignClk v] }

/-- `top->eval();` — the DUT reads the current input signals. -/
def doEval (dut : DutModel σ) (st : TbState σ) : TbState σ :=
  { st with dutState := dut.eval st.sigs st.dutState, events := st.events ++ [Event.evalE st.sigs] }

/-- `tfp->dump(t);` -/
def doDump (t : Nat) (st : TbState σ) : TbState σ :=
  { st with events := st.events ++ [Event.dump t] }

/-- `printf("Cycle %d: count = %d\n", cycle, top->count);` -/
def doPrint (dut : DutModel σ) (cycle : Nat) (st : TbState σ) : TbState σ :=
  { st with events := st.events ++ [Event.printLine cycle (dut.count st.dutState)] }

/-- The body of the `for (int cycle = 0; cycle < 100; cycle++)` loop,
statement by statement (source lines 25–41). -/
def cycleBody (dut : DutModel σ) (tracing : Bool) (st : TbState σ) (cycle : Nat) : TbState σ :=
  let st := if cycle < 5 then setRstN 0 st else setEnable 1 (setRstN 1 st)
  let st := doEval dut (setClk 0 st)
  let st := if tracing then doDump (cycle * 2) st else st
  let st := doEval dut (setClk 1 st)
  let st := if tracing then doDump (cycle * 2 + 1) st else st
  doPrint dut cycle st

/-- State after the startup section: the optional recorder setup
(`Verilated::traceEverOn`, `new VerilatedVcdC`, `top->trace`, `tfp->open`,
summarised as one `traceOpen` event, lines 11–16) followed by the three
initial signal assignments (lines 19–21). -/
def initState (dut : DutModel σ) (tracing : Bool) : TbState σ :=
  setClk 0 (setEnable 0 (setRstN 0
    ⟨⟨0, 0, 0⟩, dut.init, if tracing then [Event.traceOpen] else []⟩))

/-- The teardown section (lines 44–49): if a recorder was opened, close and
release it; then release the DUT handle. -/
def teardownStep (tracing : Bool) (st : TbState σ) : TbState σ :=
  let st := if tracing then
    { st with events := st.events ++ [Event.traceClose, Event.freeRecorder] } else st
  { st with events := st.events ++ [Event.freeDut] }

/-- Result of one run of `main`: the event trace and the process exit code. -/
structure TbRun where
  events : List Event
  exitCode : Nat
deriving Repr

/-- The whole of `main`: tracing is attempted exactly when
`Verilated::gotFinish() == false`; then the 100-cycle loop; then teardown;
`return 0`. -/
def runMain (dut : DutModel σ) (gotFinish : Bool) : TbRun :=
  let tracing := gotFinish == false
  let st := (List.range 100).foldl (cycleBody dut tracing) (initState dut tracing)
  let st := teardownStep tracing st
  { events := st.events, exitCode := 0 }

/-! ## Trace projections -/

/-- Projection of a `printLine` event to its `(cycle, count)` payload. -/
def printProj : Event → Option (Nat × Nat)
  | Event.printLine c v => some (c, v)
  | _ => none

/-- The sequence of lines printed to standard output, as `(cycle, count)`
pairs, in order of emission. -/
def printedLines (es : List Event) : List (Nat × Nat) :=
  es.filterMap printProj

/-- Projection of a `dump` event to its timestamp. -/
def dumpProj : Event → Option Nat
  | Event.dump t => some t
  | _ => none

/-- The sequence of waveform-sample timestamps, in order of emission. -/
def dumpTimes (es : List Event) : List Nat :=
  es.filterMap dumpProj

/-- Projection of an `evalE` event to the input-signal vector it was
invoked under. -/
def evalProj : Event → Option DutSignals
  | Event.evalE s => some s
  | _ => none

/-- The sequence of input-signal vectors under which the model was
evaluated, in order of evaluation. -/
def evalSigs (es : List Event) : List DutSignals :=
  es.filterMap evalProj

/-- Projection of an `assignEnable` event to the assigned value. -/
def enableProj : Event → Option Nat
  | Event.assignEnable v => some v
  | _ => none

/-- The sequence of values assigned to `enable`, in order of assignment. -/
def enableAssigns (es : List Event) : List Nat :=
  es.filterMap enableProj

/-- Events that exist only because tracing is active: waveform samples and
recorder setup/teardown. -/
def Event.isTraceEvent : Event → Bool
  | Event.dump _ => true
  | Event.traceOpen => true
  | Event.traceClose => true
  | Event.freeRecorder => true
  | _ => false

/-! ## Closed forms for the run -/

/-- The level driven onto `rst_n` (and, from cycle 5 on, `enable`) during
cycle `c`: 0 while `c < 5`, 1 afterwards. -/
def inLevel (c : Nat) : Nat := if c < 5 then 0 else 1

/-- The input-signal vector in effect during the `k`-th half-cycle
(`k = 0`: clock low, `k = 1`: clock high) of cycle `c`. -/
def sigAt (c k : Nat) : DutSignals := ⟨inLevel c, inLevel c, k⟩

/-- The DUT's internal state after `h` half-cycle evaluations: the `h`-th
evaluation is invoked under the signals of half-cycle `h % 2` of cycle
`h / 2`. -/
def dutEvolve (dut : DutModel σ) : Nat → σ
  | 0 => dut.init
  | h + 1 => dut.eval (sigAt (h / 2) (h % 2)) (dutEvolve dut h)

/-- The `count` value reported for cycle `c`: the output observed after the
two evaluations of cycles `0..c` have all run (the last being the
rising-edge evaluation of cycle `c`). -/
def reported (dut : DutModel σ) (c : Nat) : Nat :=
  dut.count (dutEvolve dut (2 * c + 2))

/-- Closed form of the events emitted by cycle `c` of the loop. -/
def cycleEventsSpec (dut : DutModel σ) (tracing : Bool) (c : Nat) : List Event :=
  (if c < 5 then [Event.assignRstN 0] else [Event.assignRstN 1, Event.assignEnable 1]) ++
  [Event.assignClk 0, Event.evalE (sigAt c 0)] ++
  (if tracing then [Event.dump (c * 2)] else []) ++
  [Event.assignClk 1, Event.evalE (sigAt c 1)] ++
  (if tracing then [Event.dump (c * 2 + 1)] else []) ++
  [Event.printLine c (reported dut c)]

/-- Events emitted by the startup section. -/
def initEvents (tracing : Bool) : List Event :=
  (if tracing then [Event.traceOpen] else []) ++
  [Event.assignRstN 0, Event.assignEnable 0, Event.assignClk 0]

/-- Events emitted by startup plus the full 100-cycle loop. -/
def loopEvents (dut : DutModel σ) (tracing : Bool) : List Event :=
  initEvents tracing ++ (List.range 100).flatMap (cycleEventsSpec dut tracing)

/-- Events emitted by the teardown section. -/
def teardownEvents (tracing : Bool) : List Event :=
  (if tracing then [Event.traceClose, Event.freeRecorder] else []) ++ [Event.freeDut]

/-- The input-signal vector held in the testbench state after `n` complete
loop iterations. -/
def sigsAfter : Nat → DutSignals
  | 0 => ⟨0, 0, 0⟩
  | n + 1 => ⟨inLevel n, inLevel n, 1⟩

/-! ## Structural lemmas -/

lemma dutEvolve_fall (dut : DutModel σ) (c : Nat) :
    dutEvolve dut (2 * c + 1) = dut.eval (sigAt c 0) (dutEvolve dut (2 * c)) := by
  have h1 : (2 * c) / 2 = c := by omega
  have h2 : (2 * c) % 2 = 0 := by omega
  show dut.eval (sigAt ((2 * c) / 2) ((2 * c) % 2)) (dutEvolve dut (2 * c)) = _
  rw [h1, h2]

lemma dutEvolve_rise (dut : DutModel σ) (c : Nat) :
    dutEvolve dut (2 * c + 2) = dut.eval (sigAt c 1) (dutEvolve dut (2 * c + 1)) := by
  have h1 : (2 * c + 1) / 2 = c := by omega
  have h2 : (2 * c + 1) % 2 = 1 := by omega
  show dut.eval (sigAt ((2 * c + 1) / 2) ((2 * c + 1) % 2)) (dutEvolve dut (2 * c + 1)) = _
  rw [h1, h2]

lemma cycleBody_eq_general (dut : DutModel σ) (t : Bool) (n r0 e0 k0 : Nat)
    (E : List Event) (hen : n < 5 → e0 = 0) :
    cycleBody dut t ⟨⟨r0, e0, k0⟩, dutEvolve dut (2 * n), E⟩ n =
      ⟨sigAt n 1, dutEvolve dut (2 * n + 2), E ++ cycleEventsSpec dut t n⟩ := by
  have hfall := dutEvolve_fall dut n
  have hrise := dutEvolve_rise dut n
  by_cases h : n < 5
  · have he0 := hen h
    subst he0
    cases t <;>
      simp only [cycleBody, setRstN, setEnable, setClk, doEval, doDump, doPrint,
        cycleEventsSpec, if_pos h, Bool.false_eq_true,
        if_true, if_false, reported, hrise, hfall, TbState.mk.injEq] <;>
      refine ⟨?_, ?_, ?_⟩ <;>
      simp [sigAt, inLevel, if_pos h, List.append_assoc]
  · cases t <;>
      simp only [cycleBody, setRstN, setEnable, setClk, doEval, doDump, doPrint,
        cycleEventsSpec, if_neg h, Bool.false_eq_true,
        if_true, if_false, reported, hrise, hfall, TbState.mk.injEq] <;>
      refine ⟨?_, ?_, ?_⟩ <;>
      simp [sigAt, inLevel, if_neg h, List.append_assoc]

lemma cycleBody_eq (dut : DutModel σ) (t : Bool) (n : Nat) (E : List Event) :
    cycleBody dut t ⟨sigsAfter n, dutEvolve dut (2 * n), E⟩ n =
      ⟨sigsAfter (n + 1), dutEvolve dut (2 * n + 2), E ++ cycleEventsSpec dut t n⟩ := by
  have hout : sigsAfter (n + 1) = sigAt n 1 := rfl
  rw [hout]
  cases n with
  | zero => exact cycleBody_eq_general dut t 0 0 0 0 E (fun _ => rfl)
  | succ m =>
      show cycleBody dut t ⟨⟨inLevel m, inLevel m, 1⟩, _, E⟩ (m + 1) = _
      exact cycleBody_eq_general dut t (m + 1) (inLevel m) (inLevel m) 1 E
        (fun h => by simp [inLevel]; omega)

lemma initState_eq (dut : DutModel σ) (t : Bool) :
    initState dut t = ⟨⟨0, 0, 0⟩, dut.init, initEvents t⟩ := by
  cases t <;> rfl

lemma foldl_cycleBody (dut : DutModel σ) (t : Bool) (n : Nat) :
    (List.range n).foldl (cycleBody dut t) (initState dut t) =
      ⟨sigsAfter n, dutEvolve dut (2 * n),
        initEvents t ++ (List.range n).flatMap (cycleEventsSpec dut t)⟩ := by
  induction n with
  | zero => simp [initState_eq, sigsAfter, dutEvolve]
  | succ m ih =>
      rw [List.range_succ, List.foldl_append, ih, List.foldl_cons, List.foldl_nil,
        cycleBody_eq, List.flatMap_append]
      simp [List.append_assoc, Nat.mul_succ]

lemma runMain_events (dut : DutModel σ) (g : Bool) :
    (runMain dut g).events = loopEvents dut (g == false) ++ teardownEvents (g == false) := by
  cases g <;>
    simp [runMain, foldl_cycleBody, teardownStep, loopEvents, teardownEvents,
      List.append_assoc]

lemma runMain_exitCode (dut : DutModel σ) (g : Bool) :
    (runMain dut g).exitCode = 0 := rfl

/-! ## Projection lemmas -/

lemma filterMap_flatMap_comm {α β γ : Type} (l : List α) (f : α → List β)
    (p : β → Option γ) :
    (l.flatMap f).filterMap p = l.flatMap (fun a => (f a).filterMap p) := by
  induction l with
  | nil => rfl
  | cons a l ih => simp [List.flatMap_cons, List.filterMap_append, ih]

lemma flatMap_singleton_eq_map {α β : Type} (l : List α) (f : α → β) :
    (l.flatMap (fun a => [f a])) = l.map f := by
  induction l with
  | nil => rfl
  | cons a l ih => simp [List.flatMap_cons, ih]

lemma printedLines_cycle (dut : DutModel σ) (t : Bool) (c : Nat) :
    printedLines (cycleEventsSpec dut t c) = [(c, reported dut c)] := by
  by_cases h : c < 5 <;> cases t <;>
    simp [printedLines, cycleEventsSpec, h, printProj, List.filterMap_append]

lemma printedLines_runMain (dut : DutModel σ) (g : Bool) :
    printedLines (runMain dut g).events =
      (List.range 100).map (fun c => (c, reported dut c)) := by
  rw [runMain_events]
  unfold printedLines
  rw [List.filterMap_append]
  unfold loopEvents
  rw [List.filterMap_append, filterMap_flatMap_comm]
  have h1 : List.filterMap printProj (initEvents (g == false)) = [] := by
    cases g <;> rfl
  have h2 : List.filterMap printProj (teardownEvents (g == false)) = [] := by
    cases g <;> rfl
  rw [h1, h2]
  simp only [List.nil_append, List.append_nil]
  have h3 : ∀ c, List.filterMap printProj (cycleEventsSpec dut (g == false) c) =
      [(c, reported dut c)] := fun c => printedLines_cycle dut (g == false) c
  simp only [h3]
  exact flatMap_singleton_eq_map (List.range 100) (fun c => (c, reported dut c))

lemma dumpTimes_cycle_true (dut : DutModel σ) (c : Nat) :
    dumpTimes (cycleEventsSpec dut true c) = [c * 2, c * 2 + 1] := by
  by_cases h : c < 5 <;>
    simp [dumpTimes, cycleEventsSpec, h, dumpProj, List.filterMap_append]

lemma dumpTimes_runMain_tracing (dut : DutModel σ) :
    dumpTimes (runMain dut false).events =
      (List.range 100).flatMap (fun c => [c * 2, c * 2 + 1]) := by
  rw [runMain_events]
  unfold dumpTimes loopEvents
  rw [List.filterMap_append, List.filterMap_append, filterMap_flatMap_comm]
  have h1 : List.filterMap dumpProj (initEvents (false == false)) = [] := rfl
  have h2 : List.filterMap dumpProj (teardownEvents (false == false)) = [] := rfl
  rw [h1, h2]
  simp only [List.nil_append, List.append_nil]
  have h3 : ∀ c, List.filterMap dumpProj (cycleEventsSpec dut (false == false) c) =
      [c * 2, c * 2 + 1] := fun c => dumpTimes_cycle_true dut c
  simp only [h3]

lemma evalSigs_cycle (dut : DutModel σ) (t : Bool) (c : Nat) :
    evalSigs (cycleEventsSpec dut t c) = [sigAt c 0, sigAt c 1] := by
  by_cases h : c < 5 <;> cases t <;>
    simp [evalSigs, cycleEventsSpec, h, evalProj, List.filterMap_append]

lemma evalSigs_runMain (dut : DutModel σ) (g : Bool) :
    evalSigs (runMain dut g).events =
      (List.range 100).flatMap (fun c => [sigAt c 0, sigAt c 1]) := by
  rw [runMain_events]
  unfold evalSigs loopEvents
  rw [List.filterMap_append, List.filterMap_append, filterMap_flatMap_comm]
  have h1 : List.filterMap evalProj (initEvents (g == false)) = [] := by cases g <;> rfl
  have h2 : List.filterMap evalProj (teardownEvents (g == false)) = [] := by cases g <;> rfl
  rw [h1, h2]
  simp only [List.nil_append, List.append_nil]
  have h3 : ∀ c, List.filterMap evalProj (cycleEventsSpec dut (g == false) c) =
      [sigAt c 0, sigAt c 1] := fun c => evalSigs_cycle dut (g == false) c
  simp only [h3]

lemma enableAssigns_cycle (dut : DutModel σ) (t : Bool) (c : Nat) :
    enableAssigns (cycleEventsSpec dut t c) = if c < 5 then [] else [1] := by
  by_cases h : c < 5 <;> cases t <;>
    simp [enableAssigns, cycleEventsSpec, h, enableProj, List.filterMap_append]

lemma enableAssigns_runMain (dut : DutModel σ) (g : Bool) :
    enableAssigns (runMain dut g).events = 0 :: List.replicate 95 1 := by
  rw [runMain_events]
  unfold enableAssigns loopEvents
  rw [List.filterMap_append, List.filterMap_append, filterMap_flatMap_comm]
  have h1 : List.filterMap enableProj (initEvents (g == false)) = [0] := by cases g <;> rfl
  have h2 : List.filterMap enableProj (teardownEvents (g == false)) = [] := by cases g <;> rfl
  rw [h1, h2]
  have h3 : ∀ c, List.filterMap enableProj (cycleEventsSpec dut (g == false) c) =
      if c < 5 then [] else [1] := fun c => enableAssigns_cycle dut (g == false) c
  simp only [h3]
  have h4 : (List.range 100).flatMap (fun c => if c < 5 then ([] : List Nat) else [1]) =
      List.replicate 95 1 := by decide
  rw [h4]
  rfl

lemma filter_nonTrace_cycle (dut : DutModel σ) (t : Bool) (c : Nat) :
    (cycleEventsSpec dut t c).filter (fun e => !(e.isTraceEvent)) =
      (cycleEventsSpec dut false c).filter (fun e => !(e.isTraceEvent)) := by
  by_cases h : c < 5 <;> cases t <;>
    simp [cycleEventsSpec, h, Event.isTraceEvent, List.filter_append]

lemma filter_flatMap_comm {α β : Type} (l : List α) (f : α → List β) (p : β → Bool) :
    (l.flatMap f).filter p = l.flatMap (fun a => (f a).filter p) := by
  induction l with
  | nil => rfl
  | cons a l ih => simp [List.flatMap_cons, List.filter_append, ih]

lemma filter_nonTrace_runMain (dut : DutModel σ) (g : Bool) :
    (runMain dut g).events.filter (fun e => !(e.isTraceEvent)) =
      (runMain dut true).events.filter (fun e => !(e.isTraceEvent)) := by
  rw [runMain_events, runMain_events]
  unfold loopEvents
  rw [List.filter_append, List.filter_append, List.filter_append, List.filter_append,
    filter_flatMap_comm, filter_flatMap_comm]
  have h1 : (initEvents (g == false)).filter (fun e => !(e.isTraceEvent)) =
      (initEvents (true == false)).filter (fun e => !(e.isTraceEvent)) := by
    cases g <;> rfl
  have h2 : (teardownEvents (g == false)).filter (fun e => !(e.isTraceEvent)) =
      (teardownEvents (true == false)).filter (fun e => !(e.isTraceEvent)) := by
    cases g <;> rfl
  have h3 : ∀ c, (cycleEventsSpec dut (g == false) c).filter (fun e => !(e.isTraceEvent)) =
      (cycleEventsSpec dut (true == false) c).filter (fun e => !(e.isTraceEvent)) := by
    intro c
    cases g
    · exact filter_nonTrace_cycle dut true c
    · exact filter_nonTrace_cycle dut false c
  rw [h1, h2]
  simp only [h3]

/-! ## A concrete counter DUT, modelled from the specification -/

/-- Internal state of the modelled counter: the clock level seen at the last
evaluation (used to detect a rising edge) and the current register value. -/
structure CounterState where
  prevClk : Nat
  count : Nat
deriving DecidableEq, Repr

/-- Modelled from the spec: the Verilog source of the `counter` module is not
in the repository — only the testbench is — so the DUT is built from the
specification's description: a synchronous digital counter with reset value 0
(`assuming reset value 0`), held at 0 while `reset_active_low = 0`
(`counter held in reset`), and once enabled incrementing `by exactly 1 per
cycle relative to the prior cycle's value`, `modulo the counter's defined
wraparound width` `M`.  Each evaluation latches the clock level; on a rising
edge the register resets (if `rst_n = 0`), increments modulo `M` (if
`enable = 1`), or holds. -/
def counterModel (M : Nat) : DutModel CounterState where
  init := ⟨0, 0⟩
  eval := fun s st =>
    if s.clk = 1 ∧ st.prevClk = 0 then
      ⟨s.clk, if s.rst_n = 0 then 0 else if s.enable = 1 then (st.count + 1) % M else st.count⟩
    else
      ⟨s.clk, st.count⟩
  count := fun st => st.count

/-- The count value the modelled counter holds after the rising edge of
cycle `c`: 0 through the reset window, then `c - 4` modulo `M`. -/
def countSpec (M c : Nat) : Nat := if c < 5 then 0 else (c - 4) % M

lemma counter_evolve (M c : Nat) :
    dutEvolve (counterModel M) (2 * c + 2) = ⟨1, countSpec M c⟩ := by
  induction c with
  | zero => rfl
  | succ m ih =>
      have h2 : 2 * (m + 1) + 2 = (2 * (m + 1) + 1) + 1 := rfl
      rw [dutEvolve_rise (counterModel M) (m + 1), dutEvolve_fall (counterModel M) (m + 1)]
      have hm : 2 * (m + 1) = 2 * m + 2 := by ring
      rw [hm, ih]
      show (counterModel M).eval (sigAt (m + 1) 1)
        ((counterModel M).eval (sigAt (m + 1) 0) ⟨1, countSpec M m⟩) = _
      by_cases h : m + 1 < 5
      · have hm5 : m < 5 := by omega
        simp [counterModel, sigAt, inLevel, countSpec, h, hm5]
      · by_cases h4 : m < 5
        · have hm5 : m + 1 = 5 := by omega
          simp [counterModel, sigAt, inLevel, countSpec, h, h4, hm5]
        · have e1 : ((m - 4) % M + 1) % M = (m + 1 - 4) % M := by
            rw [Nat.mod_add_mod]
            congr 1
            omega
          simp [counterModel, sigAt, inLevel, countSpec, h, h4, e1]

lemma reported_counter (M c : Nat) :
    reported (counterModel M) c = countSpec M c := by
  unfold reported
  rw [counter_evolve]
  rfl

lemma lines_counter (M c : Nat) (h : c < 100) :
    (printedLines (runMain (counterModel M) false).events).getD c (0, 0) =
      (c, countSpec M c) := by
  rw [printedLines_runMain]
  rw [List.getD_eq_getElem?_getD, List.getElem?_map, List.getElem?_range h]
  simp [reported_counter]

/-! ## Claim theorems -/

lemma filter_nonTrace_noTracing (dut : DutModel σ) :
    (runMain dut true).events.filter (fun e => !(e.isTraceEvent)) =
      (runMain dut true).events := by
  rw [runMain_events]
  unfold loopEvents
  rw [List.filter_append, List.filter_append, filter_flatMap_comm]
  have h1 : (initEvents (true == false)).filter (fun e => !(e.isTraceEvent)) =
      initEvents (true == false) := rfl
  have h2 : (teardownEvents (true == false)).filter (fun e => !(e.isTraceEvent)) =
      teardownEvents (true == false) := rfl
  have h3 : ∀ c, (cycleEventsSpec dut (true == false) c).filter (fun e => !(e.isTraceEvent)) =
      cycleEventsSpec dut (true == false) c := by
    intro c
    by_cases h : c < 5 <;>
      simp [cycleEventsSpec, h, Event.isTraceEvent, List.filter_append]
  rw [h1, h2]
  simp only [h3]

/-- C1: every run of the testbench prints exactly 100 lines, one per cycle
`c` in `[0, 100)`, of the form `(c, count)`, in strictly increasing cycle
order. -/
theorem tb_prints_hundred_lines_in_order {σ : Type} (dut : DutModel σ) (g : Bool) :
    printedLines (runMain dut g).events =
      (List.range 100).map (fun c => (c, reported dut c)) ∧
    (printedLines (runMain dut g).events).length = 100 ∧
    List.Pairwise (fun p q => p.1 < q.1) (printedLines (runMain dut g).events) := by
  refine ⟨printedLines_runMain dut g, ?_, ?_⟩
  · rw [printedLines_runMain]
    simp
  · rw [printedLines_runMain, List.pairwise_map]
    exact (List.pairwise_lt_range 100).imp (fun h => h)

/-- C2: each cycle `c` performs, in order: the reset-window assignments, a
falling-edge evaluation (`clk = 0` then `eval`), a trace sample at
timestamp `2c` when tracing, a rising-edge evaluation (`clk = 1` then
`eval`), a trace sample at timestamp `2c + 1` when tracing, and finally the
printed line; so exactly two evaluations happen per cycle and the reported
count is the value observed after the rising-edge evaluation. -/
theorem tb_per_cycle_procedure {σ : Type} (dut : DutModel σ) (g : Bool) :
    (runMain dut g).events =
      initEvents (g == false) ++
        (List.range 100).flatMap (cycleEventsSpec dut (g == false)) ++
        teardownEvents (g == false) ∧
    (∀ c, evalSigs (cycleEventsSpec dut (g == false) c) = [sigAt c 0, sigAt c 1]) ∧
    (∀ c, reported dut c = dut.count (dutEvolve dut (2 * c + 2))) := by
  refine ⟨?_, fun c => evalSigs_cycle dut (g == false) c, fun c => rfl⟩
  rw [runMain_events]
  rfl

/-- C3: during both half-cycle evaluations of every cycle `c < 5` the
`rst_n` input is 0; during both half-cycle evaluations of every cycle
`c ≥ 5` the `rst_n` and `enable` inputs are 1; the driven input vector is
constant on each of the two phases (one transition at cycle 5, none back). -/
theorem tb_reset_window_policy {σ : Type} (dut : DutModel σ) (g : Bool) :
    evalSigs (runMain dut g).events =
      (List.range 100).flatMap (fun c => [sigAt c 0, sigAt c 1]) ∧
    (∀ c k, c < 5 → (sigAt c k).rst_n = 0) ∧
    (∀ c k, 5 ≤ c → (sigAt c k).rst_n = 1 ∧ (sigAt c k).enable = 1) ∧
    (∀ c k, c < 5 → sigAt c k = sigAt 0 k) ∧
    (∀ c k, 5 ≤ c → sigAt c k = sigAt 5 k) := by
  refine ⟨evalSigs_runMain dut g, ?_, ?_, ?_, ?_⟩
  · intro c k hc
    simp [sigAt, inLevel, hc]
  · intro c k hc
    constructor <;> · simp only [sigAt, inLevel]; rw [if_neg (by omega)]
  · intro c k hc
    simp [sigAt, inLevel, hc]
  · intro c k hc
    simp only [sigAt, inLevel]
    rw [if_neg (by omega)]
    rfl

lemma flatMap_double_range (n : Nat) :
    (List.range n).flatMap (fun c => [c * 2, c * 2 + 1]) = List.range (2 * n) := by
  induction n with
  | zero => rfl
  | succ m ih =>
      rw [List.range_succ, List.flatMap_append, ih]
      have h1 : 2 * (m + 1) = (2 * m + 1) + 1 := by ring
      rw [h1, List.range_succ, List.range_succ]
      simp [List.append_assoc, Nat.mul_comm]

/-- C4: with tracing enabled at startup, exactly 200 trace samples are
recorded, their timestamps are `2c` and `2c + 1` for each cycle `c`, and
they form the strictly increasing sequence `0, 1, ..., 199`. -/
theorem tb_trace_sample_timestamps {σ : Type} (dut : DutModel σ) :
    dumpTimes (runMain dut false).events = List.range 200 ∧
    dumpTimes (runMain dut false).events =
      (List.range 100).flatMap (fun c => [c * 2, c * 2 + 1]) ∧
    List.Pairwise (· < ·) (dumpTimes (runMain dut false).events) := by
  have h := dumpTimes_runMain_tracing dut
  have h200 : (List.range 100).flatMap (fun c => [c * 2, c * 2 + 1]) = List.range 200 := by
    rw [flatMap_double_range]
  refine ⟨by rw [h, h200], h, ?_⟩
  rw [h, h200]
  exact List.pairwise_lt_range 200

/-- C3 witness: at concrete cycles, reset is asserted in the window and
released with enable afterwards. -/
theorem tb_reset_window_policy_witness :
    (sigAt 3 0).rst_n = 0 ∧ (sigAt 7 1).rst_n = 1 ∧ (sigAt 7 1).enable = 1 :=
  ⟨(tb_reset_window_policy (counterModel 8) false).2.1 3 0 (by decide),
   ((tb_reset_window_policy (counterModel 8) false).2.2.1 7 1 (by decide)).1,
   ((tb_reset_window_policy (counterModel 8) false).2.2.1 7 1 (by decide)).2⟩

/-- C5 counterexample: with the spec-modelled counter (wraparound 256), the
line printed for cycle 99 is `count = 95`, not `count = 94` as the claim
states: cycle 5 already reports the first increment (1), so cycle 99
reports `99 - 4 = 95`. -/
theorem counter_scenario_cycle99_counterexample :
    (printedLines (runMain (counterModel 256) false).events).getD 99 (0, 0) = (99, 95) ∧
    ((printedLines (runMain (counterModel 256) false).events).getD 99 (0, 0)).2 ≠ 94 % 256 := by
  have h := lines_counter 256 99 (by omega)
  constructor
  · rw [h]
    rfl
  · rw [h]
    decide

/-- C5 (amended): assuming the counter's reset value is 0, every cycle in
0–4 reports `count = 0`, cycle 5 reports the first post-reset increment
(`(0 + 1) % M`), and cycle 99 reports `count = 95` (i.e. 99 minus 4) modulo
the counter's wraparound width. -/
theorem counter_scenario_amended (M : Nat) :
    (∀ c, c < 5 →
      (printedLines (runMain (counterModel M) false).events).getD c (0, 0) = (c, 0)) ∧
    (printedLines (runMain (counterModel M) false).events).getD 5 (0, 0) = (5, (0 + 1) % M) ∧
    (printedLines (runMain (counterModel M) false).events).getD 99 (0, 0) = (99, 95 % M) := by
  refine ⟨fun c hc => ?_, ?_, ?_⟩
  · rw [lines_counter M c (by omega)]
    simp [countSpec, hc]
  · rw [lines_counter M 5 (by omega)]
    rfl
  · rw [lines_counter M 99 (by omega)]
    rfl

/-- C5 witness: the amended scenario at wraparound width 16, cycle 2. -/
theorem counter_scenario_amended_witness :
    (printedLines (runMain (counterModel 16) false).events).getD 2 (0, 0) = (2, 0) :=
  (counter_scenario_amended 16).1 2 (by decide)

/-- C6: for every cycle below 5 the reported count is the counter's reset
value 0, and for every later cycle of the run the reported count is the
previous cycle's reported count plus exactly 1, modulo the wraparound
width `M`. -/
theorem counter_reset_hold_and_unit_increment (M : Nat) :
    (∀ c, c < 5 →
      (printedLines (runMain (counterModel M) false).events).getD c (0, 0) = (c, 0)) ∧
    (∀ c, 5 ≤ c → c < 100 →
      ((printedLines (runMain (counterModel M) false).events).getD c (0, 0)).2 =
        (((printedLines (runMain (counterModel M) false).events).getD (c - 1) (0, 0)).2 + 1)
          % M) := by
  refine ⟨fun c hc => ?_, fun c h5 h100 => ?_⟩
  · rw [lines_counter M c (by omega)]
    simp [countSpec, hc]
  · rw [lines_counter M c (by omega), lines_counter M (c - 1) (by omega)]
    by_cases h6 : c = 5
    · subst h6
      simp [countSpec]
    · simp only [countSpec]
      rw [if_neg (by omega), if_neg (by omega)]
      rw [Nat.mod_add_mod]
      congr 1
      omega

/-- C6 witness: reset hold at cycle 4 and the unit increment from cycle
`7 - 1 = 6` to cycle 7, at wraparound width 256. -/
theorem counter_reset_hold_and_unit_increment_witness :
    (printedLines (runMain (counterModel 256) false).events).getD 4 (0, 0) = (4, 0) ∧
    ((printedLines (runMain (counterModel 256) false).events).getD 7 (0, 0)).2 =
      (((printedLines (runMain (counterModel 256) false).events).getD (7 - 1) (0, 0)).2 + 1)
        % 256 :=
  ⟨(counter_reset_hold_and_unit_increment 256).1 4 (by decide),
   (counter_reset_hold_and_unit_increment 256).2 7 (by decide) (by decide)⟩

/-- C7: a run with tracing and a run without tracing on the same DUT differ
only in trace events: the non-trace event sequences (signal assignments,
evaluations, printed lines, DUT teardown) coincide, the non-tracing run has
no trace events at all, and the printed output and evaluation sequences are
identical. -/
theorem tb_tracing_noninterference {σ : Type} (dut : DutModel σ) :
    (runMain dut false).events.filter (fun e => !(e.isTraceEvent)) =
      (runMain dut true).events.filter (fun e => !(e.isTraceEvent)) ∧
    (runMain dut true).events.filter (fun e => !(e.isTraceEvent)) =
      (runMain dut true).events ∧
    printedLines (runMain dut false).events = printedLines (runMain dut true).events ∧
    evalSigs (runMain dut false).events = evalSigs (runMain dut true).events := by
  refine ⟨filter_nonTrace_runMain dut false, filter_nonTrace_noTracing dut, ?_, ?_⟩
  · rw [printedLines_runMain, printedLines_runMain]
  · rw [evalSigs_runMain, evalSigs_runMain]

/-- C8: on the normal exit path the teardown is ordered: with a recorder
open, the trace is closed and the recorder released, then the DUT handle is
released; without a recorder only the DUT handle is released; either way
the process returns 0. -/
theorem tb_teardown_order {σ : Type} (dut : DutModel σ) :
    (runMain dut false).events =
      loopEvents dut true ++ [Event.traceClose, Event.freeRecorder, Event.freeDut] ∧
    (runMain dut true).events = loopEvents dut false ++ [Event.freeDut] ∧
    (runMain dut false).exitCode = 0 ∧ (runMain dut true).exitCode = 0 := by
  refine ⟨?_, ?_, rfl, rfl⟩
  · rw [runMain_events]
    simp [teardownEvents]
  · rw [runMain_events]
    simp [teardownEvents]

lemma length_flatMap_pair {α : Type} (n : Nat) (f g : Nat → α) :
    ((List.range n).flatMap (fun c => [f c, g c])).length = 2 * n := by
  induction n with
  | zero => rfl
  | succ m ih =>
      rw [List.range_succ, List.flatMap_append]
      simp [ih]
      omega

/-- C9: the backend's finished condition is read once, at startup, only to
choose the tracing flag; whichever value it has, the loop performs all 100
iterations — 100 printed lines and 200 evaluations — and the printed output
and evaluation sequences do not depend on it. -/
theorem tb_loop_unconditional {σ : Type} (dut : DutModel σ) (g h : Bool) :
    (printedLines (runMain dut g).events).length = 100 ∧
    (evalSigs (runMain dut g).events).length = 200 ∧
    printedLines (runMain dut g).events = printedLines (runMain dut h).events ∧
    evalSigs (runMain dut g).events = evalSigs (runMain dut h).events := by
  refine ⟨?_, ?_, ?_, ?_⟩
  · rw [printedLines_runMain]
    simp
  · rw [evalSigs_runMain]
    have h2 := length_flatMap_pair 100 (fun c => sigAt c 0) (fun c => sigAt c 1)
    omega
  · rw [printedLines_runMain, printedLines_runMain]
  · rw [evalSigs_runMain, evalSigs_runMain]

/-- C10: the `enable` input keeps its initial value 0 through both
half-cycle evaluations of every cycle in the reset window; the assignment
sequence to `enable` is the initial 0 followed only by the 1s of cycles
5–99, so it is first raised at cycle 5 and never changes again. -/
theorem tb_enable_held_through_reset_window {σ : Type} (dut : DutModel σ) (g : Bool) :
    enableAssigns (runMain dut g).events = 0 :: List.replicate 95 1 ∧
    evalSigs (runMain dut g).events =
      (List.range 100).flatMap (fun c => [sigAt c 0, sigAt c 1]) ∧
    (∀ c k, c < 5 → (sigAt c k).enable = 0) ∧
    (∀ c k, 5 ≤ c → (sigAt c k).enable = 1) := by
  refine ⟨enableAssigns_runMain dut g, evalSigs_runMain dut g, ?_, ?_⟩
  · intro c k hc
    simp [sigAt, inLevel, hc]
  · intro c k hc
    simp only [sigAt, inLevel]
    rw [if_neg (by omega)]

/-- C10 witness: `enable` is 0 at a half-cycle inside the reset window and
1 at one outside it. -/
theorem tb_enable_held_witness :
    (sigAt 2 1).enable = 0 ∧ (sigAt 6 0).enable = 1 :=
  ⟨(tb_enable_held_through_reset_window (counterModel 4) true).2.2.1 2 1 (by decide),
   (tb_enable_held_through_reset_window (counterModel 4) true).2.2.2 6 0 (by decide)⟩
